import Mathlib

/-!
Verification of the thread-coordination core of the record/replay engine
(`toolkit/recordreplay/Thread.h` and `toolkit/recordreplay/BufferStream.h`).

The per-thread execution state and the inline operations of `class Thread`
are embedded shallowly: machine booleans become `Bool`, the `size_t`
disallow counter becomes `Nat`, and a `MOZ_RELEASE_ASSERT` failure (which
aborts the process) is modelled by returning `none` from an
`Option`-valued operation.
-/

namespace RecordReplay

/-- The ID used by the process main thread (`MainThreadId = 1`). -/
def MainThreadId : Nat := 1

/-- The maximum ID useable by recorded threads (`MaxThreadId = 70`). -/
def MaxThreadId : Nat := 70

/-- The mutable per-thread fields of `class Thread` that the verified
operations touch: `mId`, `mPassThroughEvents`, `mDisallowEvents`,
`mDivergedFromRecording` and `mShouldDivergeFromRecording`. -/
structure Thread where
  mId : Nat
  mPassThroughEvents : Bool
  mDisallowEvents : Nat
  mDivergedFromRecording : Bool
  mShouldDivergeFromRecording : Bool
  deriving Repr, DecidableEq

namespace Thread

/-- `PassThroughEvents()`: read the pass-through flag. -/
def PassThroughEvents (t : Thread) : Bool := t.mPassThroughEvents

/-- `SetPassThrough(aPassThrough)`: asserts the flag is being toggled
(`MOZ_RELEASE_ASSERT(mPassThroughEvents == !aPassThrough)`), then stores
the new value.  Assertion failure is `none`. -/
def SetPassThrough (t : Thread) (aPassThrough : Bool) : Option Thread :=
  if t.mPassThroughEvents = !aPassThrough then
    some { t with mPassThroughEvents := aPassThrough }
  else
    none

/-- `BeginDisallowEvents()`: increment the disallow counter. -/
def BeginDisallowEvents (t : Thread) : Thread :=
  { t with mDisallowEvents := t.mDisallowEvents + 1 }

/-- `EndDisallowEvents()`: asserts the counter is nonzero
(`MOZ_RELEASE_ASSERT(mDisallowEvents)`), then decrements it. -/
def EndDisallowEvents (t : Thread) : Option Thread :=
  if t.mDisallowEvents ≠ 0 then
    some { t with mDisallowEvents := t.mDisallowEvents - 1 }
  else
    none

/-- `AreEventsDisallowed()`: `mDisallowEvents != 0`. -/
def AreEventsDisallowed (t : Thread) : Bool := t.mDisallowEvents ≠ 0

/-- `DivergeFromRecording()`: set the sticky divergence flag. -/
def DivergeFromRecording (t : Thread) : Thread :=
  { t with mDivergedFromRecording := true }

/-- `HasDivergedFromRecording()`: read the sticky divergence flag. -/
def HasDivergedFromRecording (t : Thread) : Bool := t.mDivergedFromRecording

/-- `SetShouldDivergeFromRecording()`: asserts the caller is the main
thread (`MOZ_RELEASE_ASSERT(CurrentIsMainThread())`), sets
`mShouldDivergeFromRecording` and calls `Notify(mId)`.  The result records
the updated thread together with the ID passed to `Notify`. -/
def SetShouldDivergeFromRecording (t : Thread) (currentIsMainThread : Bool) :
    Option (Thread × Nat) :=
  if currentIsMainThread then
    some ({ t with mShouldDivergeFromRecording := true }, t.mId)
  else
    none

/-- `MaybeDivergeFromRecording()`: if `mShouldDivergeFromRecording` is set,
set `mDivergedFromRecording`; return the (possibly updated) value of
`mDivergedFromRecording` together with the updated thread. -/
def MaybeDivergeFromRecording (t : Thread) : Thread × Bool :=
  let t1 := if t.mShouldDivergeFromRecording then
              { t with mDivergedFromRecording := true }
            else t
  (t1, t1.mDivergedFromRecording)

/-- `CanAccessRecording()`:
`!PassThroughEvents() && !AreEventsDisallowed() && !HasDivergedFromRecording()`. -/
def CanAccessRecording (t : Thread) : Bool :=
  !t.PassThroughEvents && !t.AreEventsDisallowed && !t.HasDivergedFromRecording

end Thread

/-- The operations on a `Thread` record, used to state invariants that
quantify over "every operation" (rewind excluded: no operation here models
rewinding). -/
inductive ThreadOp where
  | setPassThrough (aPassThrough : Bool)
  | beginDisallowEvents
  | endDisallowEvents
  | divergeFromRecording
  | setShouldDivergeFromRecording (currentIsMainThread : Bool)
  | maybeDivergeFromRecording
  deriving Repr, DecidableEq

/-- Apply one operation to a thread record; `none` models a fatal
assertion failure. -/
def ThreadOp.apply (t : Thread) : ThreadOp → Option Thread
  | .setPassThrough b => t.SetPassThrough b
  | .beginDisallowEvents => some t.BeginDisallowEvents
  | .endDisallowEvents => t.EndDisallowEvents
  | .divergeFromRecording => some t.DivergeFromRecording
  | .setShouldDivergeFromRecording m =>
      (t.SetShouldDivergeFromRecording m).map Prod.fst
  | .maybeDivergeFromRecording => some t.MaybeDivergeFromRecording.1

/-- Run a sequence of operations on a thread record, stopping at the first
fatal assertion. -/
def ThreadOp.run (t : Thread) : List ThreadOp → Option Thread
  | [] => some t
  | op :: ops => (op.apply t).bind (fun t1 => ThreadOp.run t1 ops)

/-- `BufferStream` (BufferStream.h): reading or writing a stream of data
backed by an in-memory buffer.  `mOutput = none` models a null
`InfallibleVector<char>*`; `mInput = none` models a null input pointer;
the remaining input bytes stand for `mInput`/`mInputSize` together. -/
structure BufferStream where
  mOutput : Option (List UInt8)
  mInput : Option (List UInt8)
  deriving Repr, DecidableEq

namespace BufferStream

/-- `BufferStream(const char* aInput, size_t aInputSize)`. -/
def ofInput (aInput : List UInt8) : BufferStream := ⟨none, some aInput⟩

/-- `BufferStream(InfallibleVector<char>* aOutput)` with a fresh vector. -/
def ofOutput : BufferStream := ⟨some [], none⟩

/-- `WriteBytes(aData, aSize)`: asserts `mOutput` and appends. -/
def WriteBytes (s : BufferStream) (aData : List UInt8) : Option BufferStream :=
  match s.mOutput with
  | none => none
  | some out => some { s with mOutput := some (out ++ aData) }

/-- `ReadBytes(aData, aSize)`: for a nonzero size, asserts `mInput` and
`aSize <= mInputSize`, then copies `aSize` bytes and advances the input;
a zero-size read does nothing.  The result pairs the bytes copied out with
the advanced stream; `none` models `MOZ_RELEASE_ASSERT` failure. -/
def ReadBytes (s : BufferStream) (aSize : Nat) :
    Option (List UInt8 × BufferStream) :=
  if aSize = 0 then some ([], s)
  else
    match s.mInput with
    | none => none
    | some l =>
      if aSize ≤ l.length then
        some (l.take aSize, { s with mInput := some (l.drop aSize) })
      else
        none

/-- `IsEmpty()`: asserts `mInput`, returns `mInputSize == 0`. -/
def IsEmpty (s : BufferStream) : Option Bool :=
  s.mInput.map (fun l => l.length == 0)

end BufferStream

/-- The stream-side state touched by `RecordingEventSection`: the stream's
`mInRecordingEventSection` flag, the read-side hold count of the
recording's `mStreamLock` reader/writer lock, and whether the thread's
event stream is at end (`Events().AtEnd()`). -/
structure StreamState where
  mInRecordingEventSection : Bool
  streamLockReaders : Nat
  atEnd : Bool
  deriving Repr, DecidableEq

/-- The replay-side loop of the `RecordingEventSection` constructor:
`while (!aThread->MaybeDivergeFromRecording() && aThread->Events().AtEnd())
HitEndOfRecording();`.  `HitEndOfRecording` is an external collaborator
that blocks until more data arrives or divergence is requested; it is
modelled as an arbitrary state transformer `h`.  Since it may block
forever, the loop is run on fuel; `none` means the loop is still blocked
after `fuel` iterations. -/
def replayLoop (h : Thread × StreamState → Thread × StreamState) :
    Nat → Thread × StreamState → Option (Thread × StreamState)
  | 0, _ => none
  | fuel + 1, (t, st) =>
      let p := t.MaybeDivergeFromRecording
      if !p.2 && st.atEnd then replayLoop h fuel (h (p.1, st))
      else some (p.1, st)

namespace RecordingEventSection

/-- `RecordingEventSection::RecordingEventSection(aThread)`.  A null
`aThread` or one that cannot access recording makes the guard a no-op.
While recording it asserts the section does not nest
(`MOZ_RELEASE_ASSERT(!...mInRecordingEventSection)`, `none` on failure),
takes the stream lock's read side and sets the in-section marker.  While
replaying it runs `replayLoop`. -/
def construct (isRecording : Bool)
    (h : Thread × StreamState → Thread × StreamState) (fuel : Nat)
    (aThread : Option Thread) (st : StreamState) :
    Option (Option Thread × StreamState) :=
  match aThread with
  | none => some (none, st)
  | some t =>
    if !t.CanAccessRecording then some (some t, st)
    else if isRecording then
      if st.mInRecordingEventSection then none
      else
        some (some t,
          { st with streamLockReaders := st.streamLockReaders + 1,
                    mInRecordingEventSection := true })
    else
      (replayLoop h fuel (t, st)).map (fun p => (some p.1, p.2))

/-- `RecordingEventSection::~RecordingEventSection()`: no-op when the
thread is null or cannot access recording; while recording it releases the
stream lock's read side and clears the in-section marker; while replaying
it does nothing. -/
def destruct (isRecording : Bool) (mThread : Option Thread)
    (st : StreamState) : StreamState :=
  match mThread with
  | none => st
  | some t =>
    if !t.CanAccessRecording then st
    else if isRecording then
      { st with streamLockReaders := st.streamLockReaders - 1,
                mInRecordingEventSection := false }
    else st

/-- `RecordingEventSection::CanAccessEvents(aTolerateDisallowedEvents)`:
false for a null, pass-through or diverged thread; false when disallowed
events are tolerated and events are disallowed; otherwise asserts
`CanAccessRecording()` (`none` on failure) and returns true. -/
def CanAccessEvents (mThread : Option Thread)
    (aTolerateDisallowedEvents : Bool) : Option Bool :=
  match mThread with
  | none => some false
  | some t =>
    if t.PassThroughEvents || t.HasDivergedFromRecording then some false
    else if aTolerateDisallowedEvents && t.AreEventsDisallowed then some false
    else if t.CanAccessRecording then some true
    else none

end RecordingEventSection

/-- Observable events on a single thread's wait/notify channel:
a call to `Notify(id)` targeting this thread, or a call to `Wait()` by
this thread returning. -/
inductive WNEvent where
  | notify
  | waitReturn
  deriving Repr, DecidableEq

/-- Modelled from the spec: the bodies of `Thread::Wait` and
`Thread::Notify` (Thread.cpp) are not part of this source snapshot, only
their declarations and documented semantics in Thread.h ("Each Notify()
on a thread ID will cause that thread to return from one call to Wait()";
a Notify() of a thread that is not waiting lets it return from its next
Wait() without another Notify()).  Each thread's channel is a counting
signal: the state is the number of remembered, unconsumed notifies; a
`notify` increments it; a `wait` can return only by consuming one pending
notify, and blocks (no transition) when none is pending. -/
def WNStep (pending : Nat) : WNEvent → Option Nat
  | .notify => some (pending + 1)
  | .waitReturn => if pending = 0 then none else some (pending - 1)

/-- Run a sequence of channel events; `none` means some wait in the
sequence returned without an available notify, which the semantics
forbids. -/
def WNRun (pending : Nat) : List WNEvent → Option Nat
  | [] => some pending
  | e :: tr =>
    match WNStep pending e with
    | none => none
    | some p => WNRun p tr

/-- Number of `notify` events in a trace. -/
def countNotify : List WNEvent → Nat
  | [] => 0
  | .notify :: tr => countNotify tr + 1
  | .waitReturn :: tr => countNotify tr

/-- Number of returned waits in a trace. -/
def countWaitReturn : List WNEvent → Nat
  | [] => 0
  | .notify :: tr => countWaitReturn tr
  | .waitReturn :: tr => countWaitReturn tr + 1

end RecordReplay

namespace RecordReplay

/-- C2: `CanAccessRecording()` returns true iff the thread is not in
pass-through mode, its disallow-events counter is zero, and it has not
diverged from the recording. -/
theorem canAccessRecording_iff (t : Thread) :
    t.CanAccessRecording = true ↔
      (t.mPassThroughEvents = false ∧ t.mDisallowEvents = 0 ∧
       t.mDivergedFromRecording = false) := by
  simp [Thread.CanAccessRecording, Thread.PassThroughEvents,
    Thread.AreEventsDisallowed, Thread.HasDivergedFromRecording, and_assoc]

/-- C7: events are disallowed exactly while the disallow counter is
positive; `BeginDisallowEvents` followed by `EndDisallowEvents` restores
the record exactly; `EndDisallowEvents` on a zero counter is a fatal
assertion (`none`), not a wrap-around or an error return. -/
theorem disallowEvents_counter_spec (t : Thread) :
    (t.AreEventsDisallowed = true ↔ 0 < t.mDisallowEvents) ∧
    t.BeginDisallowEvents.EndDisallowEvents = some t ∧
    (t.mDisallowEvents = 0 → t.EndDisallowEvents = none) := by
  refine ⟨?_, ?_, ?_⟩
  · simp [Thread.AreEventsDisallowed, Nat.pos_iff_ne_zero]
  · simp [Thread.BeginDisallowEvents, Thread.EndDisallowEvents]
  · intro h
    simp [Thread.EndDisallowEvents, h]

/-- Witness for C7 at a concrete thread record with a zero counter. -/
theorem disallowEvents_counter_spec_witness :
    let t : Thread := ⟨2, false, 0, false, false⟩
    (t.AreEventsDisallowed = true ↔ 0 < t.mDisallowEvents) ∧
    t.BeginDisallowEvents.EndDisallowEvents = some t ∧
    (t.mDisallowEvents = 0 → t.EndDisallowEvents = none) :=
  disallowEvents_counter_spec ⟨2, false, 0, false, false⟩

/-- Any single operation preserves a set `mDivergedFromRecording` flag. -/
theorem ThreadOp.apply_diverged_mono (op : ThreadOp) (t t1 : Thread)
    (h : op.apply t = some t1) (hd : t.mDivergedFromRecording = true) :
    t1.mDivergedFromRecording = true := by
  cases op with
  | setPassThrough b =>
    simp only [ThreadOp.apply, Thread.SetPassThrough] at h
    split at h
    · cases h; exact hd
    · exact absurd h (by simp)
  | beginDisallowEvents =>
    simp only [ThreadOp.apply, Thread.BeginDisallowEvents, Option.some.injEq] at h
    cases h; exact hd
  | endDisallowEvents =>
    simp only [ThreadOp.apply, Thread.EndDisallowEvents] at h
    split at h
    · cases h; exact hd
    · exact absurd h (by simp)
  | divergeFromRecording =>
    simp only [ThreadOp.apply, Thread.DivergeFromRecording,
      Option.some.injEq] at h
    cases h; rfl
  | setShouldDivergeFromRecording m =>
    simp only [ThreadOp.apply, Thread.SetShouldDivergeFromRecording] at h
    split at h
    · rw [Option.map_some'] at h
      cases h; exact hd
    · rw [Option.map_none'] at h
      exact absurd h (by simp)
  | maybeDivergeFromRecording =>
    simp only [ThreadOp.apply, Thread.MaybeDivergeFromRecording,
      Option.some.injEq] at h
    cases h
    split <;> simp [hd]

/-- C4: `mDivergedFromRecording` is monotone: once true, it stays true
across any sequence of thread-record operations (no operation in the model
rewinds). -/
theorem divergedFromRecording_monotone (t t1 : Thread) (ops : List ThreadOp)
    (hd : t.mDivergedFromRecording = true) (h : ThreadOp.run t ops = some t1) :
    t1.mDivergedFromRecording = true := by
  induction ops generalizing t with
  | nil =>
    simp only [ThreadOp.run, Option.some.injEq] at h
    cases h; exact hd
  | cons op ops ih =>
    simp only [ThreadOp.run, Option.bind_eq_bind, Option.bind_eq_some] at h
    obtain ⟨t2, h2, hrun⟩ := h
    exact ih t2 (ThreadOp.apply_diverged_mono op t t2 h2 hd) hrun

/-- Witness for C4: a diverged thread stays diverged across a concrete
operation sequence. -/
theorem divergedFromRecording_monotone_witness :
    (⟨2, false, 0, true, false⟩ : Thread).mDivergedFromRecording = true ∧
    ThreadOp.run ⟨2, false, 0, true, false⟩
      [.beginDisallowEvents, .maybeDivergeFromRecording, .endDisallowEvents] =
      some ⟨2, false, 0, true, false⟩ ∧
    (⟨2, false, 0, true, false⟩ : Thread).mDivergedFromRecording = true :=
  ⟨by decide, by decide,
    divergedFromRecording_monotone ⟨2, false, 0, true, false⟩
      ⟨2, false, 0, true, false⟩
      [.beginDisallowEvents, .maybeDivergeFromRecording, .endDisallowEvents]
      (by decide) (by decide)⟩

/-- C3: `MaybeDivergeFromRecording()` promotes `mShouldDivergeFromRecording`
into the sticky `mDivergedFromRecording` flag (leaving the record untouched
when the request flag is clear), returns the resulting value of
`mDivergedFromRecording`, and is the only operation whose effect on
`mDivergedFromRecording` depends on `mShouldDivergeFromRecording`. -/
theorem maybeDivergeFromRecording_spec (t : Thread) :
    (t.MaybeDivergeFromRecording.1.mDivergedFromRecording =
      (t.mShouldDivergeFromRecording || t.mDivergedFromRecording)) ∧
    (t.mShouldDivergeFromRecording = false → t.MaybeDivergeFromRecording.1 = t) ∧
    (t.MaybeDivergeFromRecording.2 =
      t.MaybeDivergeFromRecording.1.mDivergedFromRecording) ∧
    (t.MaybeDivergeFromRecording.1.mShouldDivergeFromRecording =
      t.mShouldDivergeFromRecording) ∧
    (∀ (op : ThreadOp) (b : Bool), op ≠ ThreadOp.maybeDivergeFromRecording →
      (op.apply { t with mShouldDivergeFromRecording := b }).map
          Thread.mDivergedFromRecording =
        (op.apply t).map Thread.mDivergedFromRecording) := by
  refine ⟨?_, ?_, ?_, ?_, ?_⟩
  · simp only [Thread.MaybeDivergeFromRecording]
    split <;> simp_all
  · intro h
    simp [Thread.MaybeDivergeFromRecording, h]
  · simp [Thread.MaybeDivergeFromRecording]
  · simp only [Thread.MaybeDivergeFromRecording]
    split <;> rfl
  · intro op b _
    cases op with
    | setPassThrough c =>
      simp only [ThreadOp.apply, Thread.SetPassThrough]
      split <;> simp
    | beginDisallowEvents =>
      simp [ThreadOp.apply, Thread.BeginDisallowEvents]
    | endDisallowEvents =>
      simp only [ThreadOp.apply, Thread.EndDisallowEvents]
      split <;> simp
    | divergeFromRecording =>
      simp [ThreadOp.apply, Thread.DivergeFromRecording]
    | setShouldDivergeFromRecording m =>
      simp only [ThreadOp.apply, Thread.SetShouldDivergeFromRecording]
    | maybeDivergeFromRecording =>
      simp_all

/-- Witness for C3 at a concrete thread record and a concrete other
operation. -/
theorem maybeDivergeFromRecording_spec_witness :
    ((⟨3, false, 0, false, true⟩ : Thread).MaybeDivergeFromRecording.1.mDivergedFromRecording =
      ((true : Bool) || false)) ∧
    ((⟨3, false, 0, false, false⟩ : Thread).MaybeDivergeFromRecording.1 =
      (⟨3, false, 0, false, false⟩ : Thread)) ∧
    ((ThreadOp.divergeFromRecording.apply
        { (⟨3, false, 0, false, true⟩ : Thread) with
            mShouldDivergeFromRecording := false }).map
        Thread.mDivergedFromRecording =
      (ThreadOp.divergeFromRecording.apply (⟨3, false, 0, false, true⟩ : Thread)).map
        Thread.mDivergedFromRecording) :=
  ⟨(maybeDivergeFromRecording_spec ⟨3, false, 0, false, true⟩).1,
    (maybeDivergeFromRecording_spec ⟨3, false, 0, false, false⟩).2.1 (by decide),
    (maybeDivergeFromRecording_spec ⟨3, false, 0, false, true⟩).2.2.2.2
      ThreadOp.divergeFromRecording false (by decide)⟩

/-- C8: on a `BufferStream` whose input has exactly `l.length` bytes
remaining, `ReadBytes` of that many bytes succeeds, copies exactly those
bytes, and leaves the stream empty (`IsEmpty` true, zero remaining);
a request for more bytes than remain is a fatal assertion (`none`),
never a partial or garbage read. -/
theorem bufferStream_readBytes_exact_spec (o : Option (List UInt8))
    (l : List UInt8) (m : Nat) (hm : l.length < m) :
    (BufferStream.mk o (some l)).ReadBytes l.length =
      some (l, BufferStream.mk o (some [])) ∧
    (BufferStream.mk o (some ([] : List UInt8))).IsEmpty = some true ∧
    (BufferStream.mk o (some ([] : List UInt8))).mInput = some [] ∧
    (BufferStream.mk o (some l)).ReadBytes m = none := by
  refine ⟨?_, ?_, rfl, ?_⟩
  · by_cases hl : l = []
    · subst hl
      simp [BufferStream.ReadBytes]
    · have hlen : l.length ≠ 0 := by simpa using hl
      simp [BufferStream.ReadBytes, hlen]
  · simp [BufferStream.IsEmpty]
  · have hm0 : m ≠ 0 := by omega
    have : ¬ m ≤ l.length := by omega
    simp [BufferStream.ReadBytes, hm0, this]

/-- Witness for C8 on a concrete 8-byte input stream and a 9-byte request. -/
theorem bufferStream_readBytes_exact_spec_witness :
    ((8 : Nat) < 9) ∧
    ((BufferStream.mk none (some [1, 2, 3, 4, 5, 6, 7, 8])).ReadBytes 8 =
      some ([1, 2, 3, 4, 5, 6, 7, 8], BufferStream.mk none (some [])) ∧
     (BufferStream.mk none (some ([] : List UInt8))).IsEmpty = some true ∧
     (BufferStream.mk none (some ([] : List UInt8))).mInput = some [] ∧
     (BufferStream.mk none (some [1, 2, 3, 4, 5, 6, 7, 8])).ReadBytes 9 = none) :=
  ⟨by decide,
    bufferStream_readBytes_exact_spec none [1, 2, 3, 4, 5, 6, 7, 8] 9 (by decide)⟩

/-- If the replay-side loop of the constructor returns, the thread has
diverged or the stream has data. -/
theorem replayLoop_post (h : Thread × StreamState → Thread × StreamState)
    (fuel : Nat) (t t1 : Thread) (st st1 : StreamState)
    (hrun : replayLoop h fuel (t, st) = some (t1, st1)) :
    t1.mDivergedFromRecording = true ∨ st1.atEnd = false := by
  induction fuel generalizing t st with
  | zero => simp [replayLoop] at hrun
  | succ fuel ih =>
    simp only [replayLoop] at hrun
    split at hrun
    · exact ih (h (t.MaybeDivergeFromRecording.1, st)).1
        (h (t.MaybeDivergeFromRecording.1, st)).2 hrun
    · rename_i hguard
      simp only [Option.some.injEq, Prod.mk.injEq] at hrun
      obtain ⟨ht1, hst1⟩ := hrun
      simp only [Bool.and_eq_true, Bool.not_eq_true', not_and] at hguard
      by_cases hd : t.MaybeDivergeFromRecording.2 = true
      · left
        rw [← ht1]
        exact hd
      · right
        rw [← hst1]
        have h2 : t.MaybeDivergeFromRecording.2 = false := by
          revert hd; cases t.MaybeDivergeFromRecording.2 <;> simp
        have h3 := hguard h2
        revert h3; cases st.atEnd <;> simp

/-- C1: constructing a `RecordingEventSection` is a no-op for a null
thread or a thread that cannot access recording; while replaying, the
constructor's loop invokes the blocking hit-end-of-recording handler
whenever the stream is at end and the thread has not diverged, and it
returns only once the thread has diverged or the stream has data. -/
theorem recordingEventSection_construct_spec (isRecording : Bool)
    (h : Thread × StreamState → Thread × StreamState) (fuel : Nat)
    (t t1 : Thread) (st st1 : StreamState) :
    (t.CanAccessRecording = false →
      RecordingEventSection.construct isRecording h fuel (some t) st =
        some (some t, st)) ∧
    (RecordingEventSection.construct isRecording h fuel none st =
      some (none, st)) ∧
    (t.CanAccessRecording = true →
      RecordingEventSection.construct false h fuel (some t) st =
        some (some t1, st1) →
      t1.HasDivergedFromRecording = true ∨ st1.atEnd = false) ∧
    (t.MaybeDivergeFromRecording.2 = false → st.atEnd = true →
      replayLoop h (fuel + 1) (t, st) =
        replayLoop h fuel (h (t.MaybeDivergeFromRecording.1, st))) := by
  refine ⟨?_, ?_, ?_, ?_⟩
  · intro hc
    simp [RecordingEventSection.construct, hc]
  · rfl
  · intro hc hcon
    simp only [RecordingEventSection.construct, hc, Bool.not_true,
      Bool.false_eq_true, if_false, if_neg, Option.map_eq_some'] at hcon
    obtain ⟨p, hp, hq⟩ := hcon
    simp only [Prod.mk.injEq, Option.some.injEq] at hq
    obtain ⟨hq1, hq2⟩ := hq
    exact replayLoop_post h fuel t t1 st st1 (by rw [← hq1, ← hq2]; exact hp)
  · intro h1 h2
    simp [replayLoop, h1, h2]

/-- Witness for C1: a concrete replaying thread at end of stream, with a
handler that supplies more data, exits with the stream no longer at end. -/
theorem recordingEventSection_construct_spec_witness :
    ((⟨2, false, 0, false, false⟩ : Thread).CanAccessRecording = true) ∧
    (RecordingEventSection.construct false
        (fun p => (p.1, { p.2 with atEnd := false })) 2
        (some ⟨2, false, 0, false, false⟩) ⟨false, 0, true⟩ =
      some (some ⟨2, false, 0, false, false⟩, ⟨false, 0, false⟩)) ∧
    ((⟨2, false, 0, false, false⟩ : Thread).HasDivergedFromRecording = true ∨
      (⟨false, 0, false⟩ : StreamState).atEnd = false) :=
  ⟨by decide, by decide,
    (recordingEventSection_construct_spec false
        (fun p => (p.1, { p.2 with atEnd := false })) 2
        ⟨2, false, 0, false, false⟩ ⟨2, false, 0, false, false⟩
        ⟨false, 0, true⟩ ⟨false, 0, false⟩).2.2.1 (by decide) (by decide)⟩

/-- C5: while recording, for a thread that can access recording and a
non-nested section, the destructor exactly undoes the constructor: the
constructor takes the stream lock's read side and sets the in-section
marker, and the destructor restores both to their pre-construction values;
when the thread cannot access recording (diverged, pass-through or
disallowed), destruction performs no action. -/
theorem recordingEventSection_destruct_spec
    (h : Thread × StreamState → Thread × StreamState) (fuel : Nat)
    (t : Thread) (st : StreamState) :
    (t.CanAccessRecording = true → st.mInRecordingEventSection = false →
      ∃ st1, RecordingEventSection.construct true h fuel (some t) st =
          some (some t, st1) ∧
        st1.mInRecordingEventSection = true ∧
        st1.streamLockReaders = st.streamLockReaders + 1 ∧
        RecordingEventSection.destruct true (some t) st1 = st) ∧
    (t.CanAccessRecording = false →
      RecordingEventSection.destruct true (some t) st = st ∧
      RecordingEventSection.destruct false (some t) st = st) := by
  constructor
  · intro hc hin
    obtain ⟨si, r, e⟩ := st
    simp only at hin
    subst hin
    refine ⟨⟨true, r + 1, e⟩, ?_, rfl, rfl, ?_⟩
    · simp [RecordingEventSection.construct, hc]
    · simp [RecordingEventSection.destruct, hc]
  · intro hc
    constructor <;> simp [RecordingEventSection.destruct, hc]

/-- Witness for C5 at a concrete recording thread and stream state. -/
theorem recordingEventSection_destruct_spec_witness :
    (∃ st1, RecordingEventSection.construct true
        (fun p => (p.1, { p.2 with atEnd := false })) 1
        (some ⟨2, false, 0, false, false⟩) ⟨false, 5, false⟩ =
          some (some ⟨2, false, 0, false, false⟩, st1) ∧
      st1.mInRecordingEventSection = true ∧
      st1.streamLockReaders = 5 + 1 ∧
      RecordingEventSection.destruct true (some ⟨2, false, 0, false, false⟩)
        st1 = ⟨false, 5, false⟩) ∧
    (RecordingEventSection.destruct true (some ⟨2, true, 0, false, false⟩)
        ⟨false, 5, false⟩ = ⟨false, 5, false⟩) :=
  ⟨(recordingEventSection_destruct_spec
        (fun p => (p.1, { p.2 with atEnd := false })) 1
        ⟨2, false, 0, false, false⟩ ⟨false, 5, false⟩).1 (by decide) (by decide),
   ((recordingEventSection_destruct_spec
        (fun p => (p.1, { p.2 with atEnd := false })) 1
        ⟨2, true, 0, false, false⟩ ⟨false, 5, false⟩).2 (by decide)).1⟩

/-- C9: `CanAccessEvents(tolerateDisallowed)` returns false for a
pass-through or diverged thread; with `tolerateDisallowed` it also returns
false (non-fatally) when events are disallowed; and whenever it returns
true the thread can fully access recording. -/
theorem canAccessEvents_spec (t : Thread) (tol : Bool) :
    ((t.PassThroughEvents = true ∨ t.HasDivergedFromRecording = true) →
      RecordingEventSection.CanAccessEvents (some t) tol = some false) ∧
    (t.AreEventsDisallowed = true →
      RecordingEventSection.CanAccessEvents (some t) true = some false) ∧
    (RecordingEventSection.CanAccessEvents (some t) tol = some true →
      t.CanAccessRecording = true) := by
  refine ⟨?_, ?_, ?_⟩
  · intro hc
    have : (t.PassThroughEvents || t.HasDivergedFromRecording) = true := by
      rcases hc with hc | hc <;> simp [hc]
    simp [RecordingEventSection.CanAccessEvents, this]
  · intro hd
    by_cases hp : (t.PassThroughEvents || t.HasDivergedFromRecording) = true
    · simp [RecordingEventSection.CanAccessEvents, hp]
    · simp [RecordingEventSection.CanAccessEvents, hp, hd]
  · intro hacc
    simp only [RecordingEventSection.CanAccessEvents] at hacc
    split at hacc
    · simp at hacc
    · split at hacc
      · simp at hacc
      · split at hacc
        · assumption
        · simp at hacc

/-- Witness for C9 at concrete pass-through, disallowed and accessible
threads. -/
theorem canAccessEvents_spec_witness :
    (RecordingEventSection.CanAccessEvents (some ⟨2, true, 0, false, false⟩)
        false = some false) ∧
    (RecordingEventSection.CanAccessEvents (some ⟨2, false, 3, false, false⟩)
        true = some false) ∧
    ((⟨2, false, 0, false, false⟩ : Thread).CanAccessRecording = true) :=
  ⟨(canAccessEvents_spec ⟨2, true, 0, false, false⟩ false).1 (Or.inl (by decide)),
   (canAccessEvents_spec ⟨2, false, 3, false, false⟩ true).2.1 (by decide),
   (canAccessEvents_spec ⟨2, false, 0, false, false⟩ false).2.2 (by decide)⟩

/-- Channel accounting: along any valid run, the final pending count plus
the waits that returned equals the initial pending count plus the notifies
delivered. -/
theorem WNRun_count (tr : List WNEvent) (p p1 : Nat)
    (h : WNRun p tr = some p1) :
    p1 + countWaitReturn tr = p + countNotify tr := by
  induction tr generalizing p with
  | nil =>
    simp only [WNRun, Option.some.injEq] at h
    simp [countWaitReturn, countNotify, h]
  | cons e tr ih =>
    cases e with
    | notify =>
      simp only [WNRun, WNStep] at h
      have := ih (p + 1) h
      simp only [countWaitReturn, countNotify]
      omega
    | waitReturn =>
      simp only [WNRun, WNStep] at h
      rcases Nat.eq_zero_or_pos p with hp | hp
      · subst hp
        simp at h
      · rw [if_neg (Nat.pos_iff_ne_zero.mp hp)] at h
        have := ih (p - 1) h
        simp only [countWaitReturn, countNotify]
        omega

/-- C6: on a thread's wait/notify channel: a wait never returns without a
matching notify (over any valid trace from an empty channel,
`pending + waits = notifies`, so `waits ≤ notifies`); a notify that
arrives with no wait pending is remembered and the next wait returns
immediately, leaving nothing pending; one notify never satisfies two
waits; a notify consumes exactly one blocked wait; and a wait with no
pending notify blocks. -/
theorem wait_notify_spec (tr : List WNEvent) (p1 : Nat) :
    (WNRun 0 tr = some p1 →
      p1 + countWaitReturn tr = countNotify tr ∧
      countWaitReturn tr ≤ countNotify tr) ∧
    (WNRun 0 [WNEvent.notify, WNEvent.waitReturn] = some 0) ∧
    (WNRun 0 [WNEvent.notify, WNEvent.waitReturn, WNEvent.waitReturn] = none) ∧
    (∀ p : Nat, WNStep (p + 1) WNEvent.waitReturn = some p) ∧
    (WNStep 0 WNEvent.waitReturn = none) := by
  refine ⟨?_, by decide, by decide, ?_, by decide⟩
  · intro h
    have hc := WNRun_count tr 0 p1 h
    constructor
    · omega
    · omega
  · intro p
    simp [WNStep]

/-- Witness for C6 on the concrete trace notify-then-wait. -/
theorem wait_notify_spec_witness :
    (0 : Nat) + countWaitReturn [WNEvent.notify, WNEvent.waitReturn] =
      countNotify [WNEvent.notify, WNEvent.waitReturn] ∧
    countWaitReturn [WNEvent.notify, WNEvent.waitReturn] ≤
      countNotify [WNEvent.notify, WNEvent.waitReturn] :=
  (wait_notify_spec [WNEvent.notify, WNEvent.waitReturn] 0).1 (by decide)

/-- C10: `SetShouldDivergeFromRecording()` is fatal when the caller is not
the main thread; on the main thread it sets `mShouldDivergeFromRecording`
and issues `Notify` on this thread's ID. -/
theorem setShouldDivergeFromRecording_spec (t : Thread) :
    t.SetShouldDivergeFromRecording false = none ∧
    t.SetShouldDivergeFromRecording true =
      some ({ t with mShouldDivergeFromRecording := true }, t.mId) := by
  constructor
  · simp [Thread.SetShouldDivergeFromRecording]
  · simp [Thread.SetShouldDivergeFromRecording]

end RecordReplay
